import Mathlib

/-!
Verification development for the ephemeral worker job orchestrator
(`FlyWorkerService` and the Fly-worker part of `GooglePhotosImportService`).

The TypeScript source is shallowly embedded: pure functions become Lean
functions, stateful service methods become explicit state-passing functions
over a persisted job store, and the externally-failing collaborators
(provisioning API, API-key repository) are modelled by oracles for their
results plus an explicit trace of the calls that were issued.  The
cryptographic primitive `HMAC-SHA256` from `node:crypto` is not repository
code; functions that use it are parameterised by an abstract digest
function `hmacHex : String → String → String`.
-/

/- ================= JSON values and canonical serialization ================ -/

/-- JSON values as produced by `JSON.parse` / consumed by `JSON.stringify`.
Numbers are modelled as integers (the worker wire payloads carry integer
counters). Objects are ordered field lists, mirroring JS property order. -/
inductive Json where
  | null : Json
  | bool (b : Bool) : Json
  | num (n : Int) : Json
  | str (s : String) : Json
  | arr (xs : List Json) : Json
  | obj (fields : List (String × Json)) : Json

/-- Code-unit comparison of character lists: the comparison underlying the
JS default `Array.prototype.sort` on (ASCII) strings. -/
def charsLe : List Char → List Char → Bool
  | [], _ => true
  | _ :: _, [] => false
  | a :: as, b :: bs =>
      if a.toNat < b.toNat then true
      else if b.toNat < a.toNat then false
      else charsLe as bs

/-- Field comparison used when sorting an object's keys (`Object.keys(value).sort()`). -/
def keyLe (p q : String × Json) : Bool := charsLe p.1.data q.1.data

/-- Insert a field into a key-sorted field list. -/
def insertField (p : String × Json) : List (String × Json) → List (String × Json)
  | [] => [p]
  | q :: qs => if keyLe p q then p :: q :: qs else q :: insertField p qs

/-- Sort an object's fields by key (the `Object.keys(value).sort()` step of
the `stableStringify` replacer). -/
def sortFields (fs : List (String × Json)) : List (String × Json) :=
  fs.foldr insertField []

mutual
/-- Recursively sort every object's fields by key.  `JSON.stringify` with the
replacer of `stableStringify` serializes exactly this normal form in order. -/
def canon : Json → Json
  | .null => .null
  | .bool b => .bool b
  | .num n => .num n
  | .str s => .str s
  | .arr xs => .arr (canonList xs)
  | .obj fs => .obj (sortFields (canonFields fs))

def canonList : List Json → List Json
  | [] => []
  | x :: xs => canon x :: canonList xs

def canonFields : List (String × Json) → List (String × Json)
  | [] => []
  | (k, v) :: fs => (k, canon v) :: canonFields fs
end

/-- JSON string escaping as done by `JSON.stringify`. -/
def escapeChar (c : Char) : String :=
  if c = '"' then "\\\""
  else if c = '\\' then "\\\\"
  else if c = '\n' then "\\n"
  else if c = '\t' then "\\t"
  else if c = '\r' then "\\r"
  else String.singleton c

def escapeString (s : String) : String :=
  "\"" ++ String.join (s.data.map escapeChar) ++ "\""

mutual
/-- Plain `JSON.stringify` (no replacer): serialize fields in the order given. -/
def renderJson : Json → String
  | .null => "null"
  | .bool true => "true"
  | .bool false => "false"
  | .num n => toString n
  | .str s => escapeString s
  | .arr xs => "[" ++ renderList xs ++ "]"
  | .obj fs => "\x7b" ++ renderFields fs ++ "\x7d"

def renderList : List Json → String
  | [] => ""
  | [x] => renderJson x
  | x :: y :: xs => renderJson x ++ "," ++ renderList (y :: xs)

def renderFields : List (String × Json) → String
  | [] => ""
  | [(k, v)] => escapeString k ++ ":" ++ renderJson v
  | (k, v) :: q :: fs => escapeString k ++ ":" ++ renderJson v ++ "," ++ renderFields (q :: fs)
end

/-- `stableStringify(obj)`: `JSON.stringify` with a replacer that returns a
key-sorted shallow copy of every (non-array) object it visits, so the output
is the plain serialization of the recursively key-sorted value. -/
def stableStringify (j : Json) : String := renderJson (canon j)

/-- `a` and `b` are equal up to the ordering of object keys, at any nesting
depth: identical atoms, element-wise related arrays, and objects whose field
lists agree up to reordering with related values. -/
inductive JsonEqv : Json → Json → Prop where
  | null : JsonEqv .null .null
  | bool (b : Bool) : JsonEqv (.bool b) (.bool b)
  | num (n : Int) : JsonEqv (.num n) (.num n)
  | str (s : String) : JsonEqv (.str s) (.str s)
  | arrNil : JsonEqv (.arr []) (.arr [])
  | arrCons {x y : Json} {xs ys : List Json} :
      JsonEqv x y → JsonEqv (.arr xs) (.arr ys) →
      JsonEqv (.arr (x :: xs)) (.arr (y :: ys))
  | objNil : JsonEqv (.obj []) (.obj [])
  | objCons {k : String} {v w : Json} {fs gs : List (String × Json)} :
      JsonEqv v w → JsonEqv (.obj fs) (.obj gs) →
      JsonEqv (.obj ((k, v) :: fs)) (.obj ((k, w) :: gs))
  | objPerm {fs gs hs : List (String × Json)} :
      fs.Perm gs → JsonEqv (.obj gs) (.obj hs) →
      JsonEqv (.obj fs) (.obj hs)

/-- Every object in the value has pairwise-distinct keys (true of every value
produced by `JSON.parse` and of every JS object). -/
inductive NodupJson : Json → Prop where
  | null : NodupJson .null
  | bool (b : Bool) : NodupJson (.bool b)
  | num (n : Int) : NodupJson (.num n)
  | str (s : String) : NodupJson (.str s)
  | arrNil : NodupJson (.arr [])
  | arrCons {x : Json} {xs : List Json} :
      NodupJson x → NodupJson (.arr xs) → NodupJson (.arr (x :: xs))
  | objNil : NodupJson (.obj [])
  | objCons {k : String} {v : Json} {fs : List (String × Json)} :
      k ∉ fs.map Prod.fst → NodupJson v → NodupJson (.obj fs) →
      NodupJson (.obj ((k, v) :: fs))

/- ======================= Job data model (DTO layer) ======================= -/

/-- Worker phases (`'downloading' | 'processing' | 'complete' | 'failed'`). -/
inductive Phase where
  | downloading | processing | complete | failed
deriving DecidableEq, Repr

/-- `FlyWorkerJobStatus`. -/
inductive JobStatus where
  | pending | creating | downloading | processing | complete | failed | cleanup
deriving DecidableEq, Repr

/-- `ActivityEventType`. -/
inductive EventType where
  | info | success | error | download | upload | album
deriving DecidableEq, Repr

/-- `ActivityEventDto`: one entry of the activity timeline. -/
structure ActivityEvent where
  timestamp : String
  type : EventType
  message : String
deriving DecidableEq, Repr

/-- `GooglePhotosImportProgressDto`. -/
structure ImportProgress where
  phase : Phase
  current : Int
  total : Int
  currentFile : Option String
  albumsFound : Int
  photosImported : Int
  bytesDownloaded : Option Int
  totalBytes : Option Int
  errors : List String
  events : List ActivityEvent
deriving DecidableEq, Repr

/-- `FlyWorkerJobMetadata`: the persisted job record. -/
structure FlyWorkerJobMetadata where
  jobId : String
  userId : String
  machineId : String
  volumeId : String
  status : JobStatus
  progress : ImportProgress
  webhookSecret : String
  tempApiKeyId : String
  createdAt : String
  updatedAt : String
deriving DecidableEq, Repr

/-- `WorkerProgressPayloadDto` (the `progress` sub-object of the wire payload). -/
structure WorkerProgressPayload where
  current : Int
  total : Int
  currentFile : Option String
deriving DecidableEq, Repr

/-- `WorkerProgressDto`: the webhook wire payload. `none` models a field that
is absent from the delivered JSON body. -/
structure WorkerProgressDto where
  jobId : String
  phase : Phase
  progress : WorkerProgressPayload
  bytesDownloaded : Option Int
  totalBytes : Option Int
  photosImported : Option Int
  albumsFound : Option Int
  errors : Option (List String)
deriving DecidableEq, Repr

/-- The durable job metadata store (`systemMetadataRepository`), restricted to
the `fly-worker-job:`-prefixed keys: one record per job id. -/
def WorkerStore := List (String × FlyWorkerJobMetadata)

/-- `getWorkerJob`: `systemMetadataRepository.get` on the job's key. -/
def storeGet (store : WorkerStore) (jobId : String) : Option FlyWorkerJobMetadata :=
  match store with
  | [] => none
  | (k, v) :: rest => if k = jobId then some v else storeGet rest jobId

/-- `saveWorkerJob`: `systemMetadataRepository.set` on the job's key. -/
def storeSet (store : WorkerStore) (jobId : String) (job : FlyWorkerJobMetadata) : WorkerStore :=
  (jobId, job) :: (store.filter fun p => ¬ (p.1 = jobId))

/- ======================== Serialization of payloads ======================= -/

def phaseToString : Phase → String
  | .downloading => "downloading"
  | .processing => "processing"
  | .complete => "complete"
  | .failed => "failed"

/-- Present optional fields become object members; absent ones are omitted,
exactly as `JSON.stringify` omits `undefined`-valued properties. -/
def optField (k : String) : Option Json → List (String × Json)
  | none => []
  | some j => [(k, j)]

/-- The webhook payload as the JS object the service passes to
`stableStringify`, with its properties in declaration order. -/
def payloadToJson (p : WorkerProgressDto) : Json :=
  .obj ([("jobId", .str p.jobId),
         ("phase", .str (phaseToString p.phase)),
         ("progress", .obj ([("current", .num p.progress.current),
                             ("total", .num p.progress.total)]
                            ++ optField "currentFile" (p.progress.currentFile.map .str)))]
        ++ optField "bytesDownloaded" (p.bytesDownloaded.map .num)
        ++ optField "totalBytes" (p.totalBytes.map .num)
        ++ optField "photosImported" (p.photosImported.map .num)
        ++ optField "albumsFound" (p.albumsFound.map .num)
        ++ optField "errors" (p.errors.map fun es => .arr (es.map .str)))

/- ===================== Activity timeline (`addEvent`) ===================== -/

/-- `addEvent`: push the event, then keep only the last 100
(`events.slice(-100)` is `drop (length - 100)`). -/
def addEvent (evs : List ActivityEvent) (e : ActivityEvent) : List ActivityEvent :=
  let l := evs ++ [e]
  if 100 < l.length then l.drop (l.length - 100) else l

/-- The `addEvent(job, type, message)` service helper: appends a timestamped
event to `job.progress.events` under the 100-entry cap. -/
def addEventJob (job : FlyWorkerJobMetadata) (now : String) (t : EventType) (msg : String) :
    FlyWorkerJobMetadata :=
  { job with progress := { job.progress with
      events := addEvent job.progress.events ⟨now, t, msg⟩ } }

/- ===================== Webhook handling (orchestrator) ==================== -/

/-- Status derivation in the webhook handler:
`phase === 'complete' ? 'complete' : phase === 'failed' ? 'failed' : phase`. -/
def phaseToStatus : Phase → JobStatus
  | .complete => .complete
  | .failed => .failed
  | .downloading => .downloading
  | .processing => .processing

/-- JS truthiness of an optional string (`undefined` and `''` are falsy). -/
def truthy : Option String → Bool
  | none => false
  | some s => s ≠ ""

def phaseTerminal : Phase → Bool
  | .complete => true
  | .failed => true
  | _ => false

/-- Everything of a job record except the activity timeline and `updatedAt`
(those are the only parts the event-appending statements touch). -/
def nonEventView (j : FlyWorkerJobMetadata) :=
  (j.progress.phase, j.progress.current, j.progress.total, j.progress.currentFile,
   j.progress.bytesDownloaded, j.progress.totalBytes, j.progress.photosImported,
   j.progress.albumsFound, j.progress.errors, j.webhookSecret, j.status,
   j.jobId, j.userId, j.machineId, j.volumeId, j.tempApiKeyId, j.createdAt)

/-- The counters-overwrite block of `handleWorkerWebhook`: derive `status`
from the phase and overwrite `phase`, `current`, `total`, `currentFile` and
the byte counters unconditionally; overwrite `photosImported` and
`albumsFound` only when present; append (never replace) the payload's
errors. -/
def webhookMergeData (job : FlyWorkerJobMetadata) (p : WorkerProgressDto) :
    FlyWorkerJobMetadata :=
  let j1 : FlyWorkerJobMetadata :=
    { job with
      status := phaseToStatus p.phase,
      progress := { job.progress with
        phase := p.phase,
        current := p.progress.current,
        total := p.progress.total,
        currentFile := p.progress.currentFile,
        bytesDownloaded := p.bytesDownloaded,
        totalBytes := p.totalBytes } }
  let j2 := match p.photosImported with
    | some n => { j1 with progress := { j1.progress with photosImported := n } }
    | none => j1
  match p.albumsFound with
  | some n => { j2 with progress := { j2.progress with albumsFound := n } }
  | none => j2

/-- The error-append block: push all payload errors onto the stored list and
add one `error` timeline event per error string. -/
def webhookAppendErrors (j3 : FlyWorkerJobMetadata) (p : WorkerProgressDto) (now : String) :
    FlyWorkerJobMetadata :=
  match p.errors with
  | some es =>
      if 0 < es.length then
        let je := { j3 with progress := { j3.progress with errors := j3.progress.errors ++ es } }
        es.foldl (fun acc e => addEventJob acc now EventType.error e) je
      else j3
  | none => j3

/-- The phase-transition timeline events (one fixed message per target
phase; the `complete` message reads the already-merged `photosImported`). -/
def webhookPhaseEvents (j4 : FlyWorkerJobMetadata) (p : WorkerProgressDto) (now : String)
    (prevPhase : Phase) : FlyWorkerJobMetadata :=
  if p.phase ≠ prevPhase then
    match p.phase with
    | .downloading => addEventJob j4 now .info "Starting file downloads from Google Drive..."
    | .processing =>
        let t := p.progress.total
        addEventJob (addEventJob j4 now .success s!"Downloaded {t} files") now
          .info "Processing with immich-go..."
    | .complete =>
        let n := j4.progress.photosImported
        addEventJob j4 now .success s!"Import complete! {n} photos imported."
    | .failed => addEventJob j4 now .error "Import failed"
  else j4

/-- The file-download timeline event, added while downloading when a (truthy)
current-file label is present and the counter moved. -/
def webhookDownloadEvent (j5 : FlyWorkerJobMetadata) (p : WorkerProgressDto) (now : String)
    (prevCurrent : Int) : FlyWorkerJobMetadata :=
  if p.phase = Phase.downloading ∧ truthy p.progress.currentFile = true
      ∧ p.progress.current ≠ prevCurrent then
    match p.progress.currentFile with
    | some f => addEventJob j5 now .download s!"Downloading {f}"
    | none => j5
  else j5

/-- The album-count timeline event (compared against the already-merged
`albumsFound`, so in fact never added when the field is present). -/
def webhookAlbumEvent (j6 : FlyWorkerJobMetadata) (p : WorkerProgressDto) (now : String) :
    FlyWorkerJobMetadata :=
  match p.albumsFound with
  | some n => if j6.progress.albumsFound < n then
        addEventJob j6 now .album s!"Found {n} albums"
      else j6
  | none => j6

/-- The state mutation portion of `handleWorkerWebhook` (lines after the
signature check up to `saveWorkerJob`), translated statement by statement:
`prevPhase`/`prevCurrent` are read first, then the merge block, the error
append, the three conditional timeline events, and finally `updatedAt`. -/
def applyWebhook (job : FlyWorkerJobMetadata) (p : WorkerProgressDto) (now : String) :
    FlyWorkerJobMetadata :=
  let prevPhase := job.progress.phase
  let prevCurrent := job.progress.current
  let j4 := webhookAppendErrors (webhookMergeData job p) p now
  let j5 := webhookPhaseEvents j4 p now prevPhase
  let j6 := webhookDownloadEvent j5 p now prevCurrent
  let j7 := webhookAlbumEvent j6 p now
  { j7 with updatedAt := now }

/-- Errors raised by `handleWorkerWebhook`: unknown job id, the
`RangeError` that `timingSafeEqual` raises on buffers of different byte
lengths, and the invalid-signature rejection. -/
inductive WebhookError where
  | notFound
  | bufferLengthMismatch
  | invalidSignature
deriving DecidableEq, Repr

/-- `handleWorkerWebhook(signature, payload, rawBody)`, parameterised by the
abstract `hmacHex secret message` digest (`createHmac('sha256', secret)
.update(message).digest('hex')`). Returns the error or the
cleanup-dispatched flag, together with the resulting job store.
`timingSafeEqual(Buffer.from(a), Buffer.from(b))` throws when the UTF-8 byte
lengths differ and otherwise compares the bytes in constant time. -/
def handleWorkerWebhook (hmacHex : String → String → String) (store : WorkerStore)
    (signature : String) (p : WorkerProgressDto) (now : String) :
    Except WebhookError Bool × WorkerStore :=
  match storeGet store p.jobId with
  | none => (.error .notFound, store)
  | some job =>
    let payloadString := stableStringify (payloadToJson p)
    let expected := hmacHex job.webhookSecret payloadString
    if signature.utf8ByteSize ≠ expected.utf8ByteSize then
      (.error .bufferLengthMismatch, store)
    else if signature ≠ expected then
      (.error .invalidSignature, store)
    else
      let job2 := applyWebhook job p now
      (.ok (phaseTerminal p.phase), storeSet store p.jobId job2)

/- ================= Provisioning client (`FlyWorkerService`) =============== -/

/-- `calculateVolumeSizeGb(fileSizes)`: total bytes, ceil-divided into GiB,
plus a fixed 5 GB extraction buffer, clamped to [10, 100] GB. -/
def calculateVolumeSizeGb (fileSizes : List Nat) : Nat :=
  let totalBytes := fileSizes.foldl (fun sum size => sum + size) 0
  let sizeGb := (totalBytes + (1024 * 1024 * 1024 - 1)) / (1024 * 1024 * 1024) + 5
  max 10 (min 100 sizeGb)

/-- Outcomes of the external collaborators, supplied as oracles: the Fly
provisioning API's replies and whether the best-effort teardown steps
succeed (their failures are caught and only logged). -/
structure Deps where
  createVolumeResult : Except String String
  createMachineResult : Except String String
  deleteVolumeOk : Bool
  apiKeyDeleteOk : Bool
  flyCleanupOk : Bool
deriving Repr

/-- Trace of calls issued to the external collaborators, in order. Swallowed
best-effort calls record the oracle outcome they observed. -/
inductive ExtCall where
  | createVolume (sizeGb : Nat)
  | createMachine (volumeId : String)
  | deleteVolume (volumeId : String) (ok : Bool)
  | apiKeyDelete (userId keyId : String) (ok : Bool)
  | flyCleanup (machineId volumeId : String) (ok : Bool)
  | rmTempDir (jobId : String)
deriving DecidableEq, Repr

/-- `FlyWorkerService.createWorker`: create the volume; then create the
machine, and on machine-creation failure delete the just-created volume
(swallowing any deletion failure) before rethrowing the original error. -/
def createWorker (deps : Deps) (fileSizes : List Nat) :
    Except String (String × String) × List ExtCall :=
  let volumeSizeGb := calculateVolumeSizeGb fileSizes
  match deps.createVolumeResult with
  | .error e => (.error e, [.createVolume volumeSizeGb])
  | .ok volumeId =>
    match deps.createMachineResult with
    | .ok machineId =>
        (.ok (machineId, volumeId), [.createVolume volumeSizeGb, .createMachine volumeId])
    | .error e =>
        (.error e,
         [.createVolume volumeSizeGb, .createMachine volumeId,
          .deleteVolume volumeId deps.deleteVolumeOk])

/- ================== Job creation (`createImportJobWithFlyWorker`) ========= -/

/-- Errors thrown by `createImportJobWithFlyWorker` before or during
provisioning. -/
inductive StartError where
  | driveNotConnected
  | oauthNotConfigured
  | urlNotConfigured
  | provisioning (e : String)
deriving DecidableEq, Repr

/-- Stored Google Drive OAuth tokens (`getGoogleDriveTokens` result). -/
structure GoogleTokens where
  accessToken : String
  refreshToken : Option String
deriving DecidableEq, Repr

/-- The OAuth section of the system config consulted at job start. -/
structure OAuthConfig where
  enabled : Bool
  clientId : String
  clientSecret : String
deriving DecidableEq, Repr

/-- The initial `jobMetadata` record built by `createImportJobWithFlyWorker`. -/
def initialJobMetadata (jobId userId webhookSecret apiKeyId : String)
    (fileIds : List String) (now : String) : FlyWorkerJobMetadata :=
  { jobId := jobId
    userId := userId
    machineId := ""
    volumeId := ""
    status := .creating
    progress :=
      { phase := .downloading
        current := 0
        total := (fileIds.length : Int)
        currentFile := none
        albumsFound := 0
        photosImported := 0
        bytesDownloaded := none
        totalBytes := none
        errors := []
        events := [⟨now, .info, "Starting import job..."⟩] }
    webhookSecret := webhookSecret
    tempApiKeyId := apiKeyId
    createdAt := now
    updatedAt := now }

/-- `createImportJobWithFlyWorker(userId, fileIds, fileSizes)`.  The random
job id, webhook secret and minted API-key id are oracles (arguments); the
Drive tokens, OAuth config and server URL are the values the checked
prerequisites evaluate to.  Returns the result (job id, machine id, volume
id), the job store after the persisted writes, and the external-call trace. -/
def createImportJobWithFlyWorker (deps : Deps) (store : WorkerStore)
    (userId jobId webhookSecret apiKeyId : String)
    (fileIds : List String) (fileSizes : List Nat)
    (tokens : Option GoogleTokens) (oauth : OAuthConfig) (serverUrl : Option String)
    (now : String) :
    Except StartError (String × String × String) × WorkerStore × List ExtCall :=
  match tokens with
  | none => (.error .driveNotConnected, store, [])
  | some _ =>
    if ¬ (oauth.enabled = true ∧ oauth.clientId ≠ "" ∧ oauth.clientSecret ≠ "") then
      (.error .oauthNotConfigured, store, [])
    else
      match serverUrl with
      | none => (.error .urlNotConfigured, store, [])
      | some _ =>
        let jobMetadata := initialJobMetadata jobId userId webhookSecret apiKeyId fileIds now
        let store1 := storeSet store jobId jobMetadata
        match createWorker deps fileSizes with
        | (.ok (machineId, volumeId), calls) =>
            let jm1 := { jobMetadata with
              machineId := machineId, volumeId := volumeId,
              status := .downloading, updatedAt := now }
            let jm2 := addEventJob jm1 now .success "Worker started successfully"
            let n := fileIds.length
            let jm3 := addEventJob jm2 now .info s!"Preparing to download {n} files..."
            (.ok (jobId, machineId, volumeId), storeSet store1 jobId jm3, calls)
        | (.error e, calls) =>
            let jm1 := { jobMetadata with
              status := .failed,
              progress := { jobMetadata.progress with
                errors := jobMetadata.progress.errors ++ [s!"Failed to create worker: {e}"] },
              updatedAt := now }
            (.error (.provisioning e), storeSet store1 jobId jm1,
             calls ++ [.apiKeyDelete userId apiKeyId deps.apiKeyDeleteOk])

/- ===================== Cleanup (`cleanupWorkerJob`) ======================= -/

/-- `cleanupWorkerJob(jobId)`: look up the job (unknown id is a silent
return); persist status `cleanup`; best-effort delete of the temporary API
key (attempted whenever `tempApiKeyId` is truthy, outcome swallowed);
best-effort destruction of machine + volume (attempted when both refs are
truthy, outcome swallowed); final persist.  Every failure of a sub-step is
caught, so the operation itself never throws. -/
def cleanupWorkerJob (deps : Deps) (store : WorkerStore) (jobId now : String) :
    WorkerStore × List ExtCall :=
  match storeGet store jobId with
  | none => (store, [])
  | some job =>
    let job1 := { job with status := JobStatus.cleanup, updatedAt := now }
    let store1 := storeSet store jobId job1
    let calls1 := if job1.tempApiKeyId ≠ "" then
        [ExtCall.apiKeyDelete job1.userId job1.tempApiKeyId deps.apiKeyDeleteOk]
      else []
    let calls2 := if job1.machineId ≠ "" ∧ job1.volumeId ≠ "" then
        [ExtCall.flyCleanup job1.machineId job1.volumeId deps.flyCleanupOk]
      else []
    let job2 := { job1 with updatedAt := now }
    (storeSet store1 jobId job2, calls1 ++ calls2)

/- ============== Cancellation (`cancelWorkerJob` / `cancelJob`) ============ -/

/-- The in-memory (non-worker) job record, as far as cancellation touches it. -/
structure ImportJobMem where
  id : String
  userId : String
  status : JobStatus
  errors : List String
  tempApiKeyId : Option String
deriving DecidableEq, Repr

/-- The in-memory `jobs` map of the service. -/
def MemStore := List (String × ImportJobMem)

def memGet (mem : MemStore) (jobId : String) : Option ImportJobMem :=
  match mem with
  | [] => none
  | (k, v) :: rest => if k = jobId then some v else memGet rest jobId

def memSet (mem : MemStore) (jobId : String) (job : ImportJobMem) : MemStore :=
  (jobId, job) :: (mem.filter fun p => ¬ (p.1 = jobId))

/-- `cancelJob(jobId)` (in-memory path): if the job exists, abort it, mark it
failed, append the cancellation error and run `cleanupJob` (best-effort API
key delete plus temp-dir removal); otherwise do nothing. -/
def cancelJob (deps : Deps) (mem : MemStore) (jobId : String) :
    MemStore × List ExtCall :=
  match memGet mem jobId with
  | none => (mem, [])
  | some j =>
    let j1 := { j with status := JobStatus.failed,
                       errors := j.errors ++ ["Cancelled by user"] }
    let keyCalls := match j1.tempApiKeyId with
      | some k => [ExtCall.apiKeyDelete j1.userId k deps.apiKeyDeleteOk]
      | none => []
    (memSet mem jobId j1, keyCalls ++ [ExtCall.rmTempDir jobId])

/-- `cancelWorkerJob(jobId)`: unknown worker job falls back to the in-memory
`cancelJob`; otherwise mark the job failed, append "Cancelled by user",
persist, and run `cleanupWorkerJob` synchronously. -/
def cancelWorkerJob (deps : Deps) (store : WorkerStore) (mem : MemStore)
    (jobId now : String) : WorkerStore × MemStore × List ExtCall :=
  match storeGet store jobId with
  | none =>
      let r := cancelJob deps mem jobId
      (store, r.1, r.2)
  | some job =>
    let job1 := { job with
      status := JobStatus.failed,
      progress := { job.progress with errors := job.progress.errors ++ ["Cancelled by user"] },
      updatedAt := now }
    let store1 := storeSet store jobId job1
    let r := cleanupWorkerJob deps store1 jobId now
    (r.1, mem, r.2)

/- ===================== Concrete fixtures (witness inputs) ================= -/

/-- A sample progress record. -/
def sampleProgress : ImportProgress :=
  { phase := .downloading
    current := 0
    total := 10
    currentFile := none
    albumsFound := 0
    photosImported := 0
    bytesDownloaded := none
    totalBytes := none
    errors := []
    events := [] }

/-- A sample persisted job record. -/
def sampleJob : FlyWorkerJobMetadata :=
  { jobId := "job-1"
    userId := "user-1"
    machineId := "machine-1"
    volumeId := "volume-1"
    status := .downloading
    progress := sampleProgress
    webhookSecret := "secret-1"
    tempApiKeyId := "key-1"
    createdAt := "t0"
    updatedAt := "t0" }

/-- A degenerate digest oracle for witnesses: every digest is the same
64-character hex string. -/
def constHmac (digest : String) : String → String → String := fun _ _ => digest

def hex64 : String := "0000000000000000000000000000000000000000000000000000000000000000"

/-- The two key-reordered objects of the spec's canonicalization scenario:
`canonicalize({a:1,b:2}) == canonicalize({b:2,a:1})`. -/
def exampleObjAB : Json := .obj [("a", .num 1), ("b", .num 2)]

def exampleObjBA : Json := .obj [("b", .num 2), ("a", .num 1)]

/-- A sample wire payload addressed to `sampleJob`, with every optional field
absent. -/
def samplePayload : WorkerProgressDto :=
  { jobId := "job-1"
    phase := .downloading
    progress := { current := 5, total := 10, currentFile := none }
    bytesDownloaded := none
    totalBytes := none
    photosImported := none
    albumsFound := none
    errors := none }

/-- A one-job store holding `sampleJob`. -/
def sampleStore : WorkerStore := [("job-1", sampleJob)]

/-- A stored job carrying byte counters, to observe what a payload omitting
them does. -/
def sampleJobBytes : FlyWorkerJobMetadata :=
  { sampleJob with progress :=
      { sampleProgress with bytesDownloaded := some 7, totalBytes := some 99 } }

def sampleStoreBytes : WorkerStore := [("job-1", sampleJobBytes)]

/-- First payload of the out-of-order scenario: `current=5,total=10`, carrying
one error string. -/
def payloadOutOfOrderA (jid : String) : WorkerProgressDto :=
  { jobId := jid
    phase := .downloading
    progress := { current := 5, total := 10, currentFile := none }
    bytesDownloaded := none
    totalBytes := none
    photosImported := none
    albumsFound := none
    errors := some ["boom"] }

/-- Second payload of the out-of-order scenario: `current=3,total=10`. -/
def payloadOutOfOrderB (jid : String) : WorkerProgressDto :=
  { jobId := jid
    phase := .downloading
    progress := { current := 3, total := 10, currentFile := none }
    bytesDownloaded := none
    totalBytes := none
    photosImported := none
    albumsFound := none
    errors := none }

/-- Oracle outcomes for a run where the volume is created but the machine
creation fails. -/
def depsMachineFail : Deps :=
  { createVolumeResult := .ok "vol-1"
    createMachineResult := .error "machine boom"
    deleteVolumeOk := true
    apiKeyDeleteOk := true
    flyCleanupOk := true }

/-- Oracle outcomes where everything succeeds. -/
def depsAllOk : Deps :=
  { createVolumeResult := .ok "vol-1"
    createMachineResult := .ok "machine-1"
    deleteVolumeOk := true
    apiKeyDeleteOk := true
    flyCleanupOk := true }

def sampleTokens : GoogleTokens := { accessToken := "at", refreshToken := none }

def sampleOAuth : OAuthConfig := { enabled := true, clientId := "cid", clientSecret := "cs" }

/-- A job already in the terminal `complete` status. -/
def sampleJobComplete : FlyWorkerJobMetadata := { sampleJob with status := .complete }

def sampleStoreComplete : WorkerStore := [("job-1", sampleJobComplete)]

/- ====================== General helper lemmas ============================ -/

theorem storeGet_storeSet_self (store : WorkerStore) (k : String) (v : FlyWorkerJobMetadata) :
    storeGet (storeSet store k v) k = some v := by
  simp [storeGet, storeSet]

/- ========================== Claim C9: volume sizing ====================== -/

/-- The sizing algorithm exactly as §4.1 of the spec words it:
`clamp(ceil(sum(fileSizes)/1GiB) + fixedBufferGB, minGB, maxGB)` with
`fixedBufferGB = 5`, `minGB = 10`, `maxGB = 100`.  Ceiling division is
written here independently of the code's `(n + g - 1) / g` form. -/
def specVolumeSizeGb (fileSizes : List Nat) : Nat :=
  let gib := 1024 * 1024 * 1024
  let total := fileSizes.sum
  let ceilGb := total / gib + (if total % gib = 0 then 0 else 1)
  min 100 (max 10 (ceilGb + 5))

/-- C9: `calculateVolumeSizeGb` computes the spec's clamped ceiling formula;
the empty list yields the configured minimum 10; any total of at least
95 GiB yields the configured maximum 100; and both bounds are attainable
(inclusive), every result lying within `[10, 100]`. -/
theorem calculateVolumeSizeGb_correct :
    (∀ fileSizes : List Nat, calculateVolumeSizeGb fileSizes = specVolumeSizeGb fileSizes) ∧
    calculateVolumeSizeGb [] = 10 ∧
    (∀ fileSizes : List Nat,
        10 ≤ calculateVolumeSizeGb fileSizes ∧ calculateVolumeSizeGb fileSizes ≤ 100) ∧
    (∀ fileSizes : List Nat,
        95 * (1024 * 1024 * 1024) ≤ fileSizes.sum → calculateVolumeSizeGb fileSizes = 100) ∧
    calculateVolumeSizeGb [95 * (1024 * 1024 * 1024)] = 100 := by
  have hfold : ∀ fileSizes : List Nat,
      fileSizes.foldl (fun sum size => sum + size) 0 = fileSizes.sum := by
    intro l
    rw [List.sum_eq_foldl]
  refine ⟨?_, ?_, ?_, ?_, ?_⟩
  · intro l
    unfold calculateVolumeSizeGb specVolumeSizeGb
    dsimp only
    rw [hfold]
    generalize l.sum = t
    norm_num
    split <;> omega
  · decide
  · intro l
    unfold calculateVolumeSizeGb
    dsimp only
    omega
  · intro l hsum
    unfold calculateVolumeSizeGb
    dsimp only
    rw [hfold]
    generalize hq : l.sum = t at hsum
    norm_num at hsum ⊢
    omega
  · decide

/-- C9 witness: the clamp hypothesis discharged at a concrete oversized
workload (200 GiB of input is far beyond the maximum). -/
theorem calculateVolumeSizeGb_correct_witness :
    calculateVolumeSizeGb [200 * (1024 * 1024 * 1024)] = 100 :=
  calculateVolumeSizeGb_correct.2.2.2.1 [200 * (1024 * 1024 * 1024)] (by norm_num)

/- ==================== Claim C5: activity timeline cap ==================== -/

theorem addEvent_eq_drop (evs : List ActivityEvent) (e : ActivityEvent) :
    addEvent evs e = (evs ++ [e]).drop ((evs ++ [e]).length - 100) := by
  unfold addEvent
  dsimp only
  split
  · rfl
  · rw [Nat.sub_eq_zero_of_le (by omega), List.drop_zero]

theorem addEvent_length_le (evs : List ActivityEvent) (e : ActivityEvent) :
    (addEvent evs e).length ≤ 100 := by
  unfold addEvent
  dsimp only
  split
  · simp only [List.length_drop]
    omega
  · simp only [List.length_append, List.length_cons, List.length_nil] at *
    omega

set_option maxRecDepth 4000 in
theorem foldl_addEvent_eq (es : List ActivityEvent) :
    ∀ init : List ActivityEvent, init.length ≤ 100 →
      List.foldl addEvent init es = (init ++ es).drop ((init ++ es).length - 100) := by
  induction es with
  | nil =>
      intro init hinit
      simp only [List.foldl_nil, List.append_nil]
      rw [Nat.sub_eq_zero_of_le hinit, List.drop_zero]
  | cons e es ih =>
      intro init hinit
      rw [List.foldl_cons, ih _ (addEvent_length_le init e), addEvent_eq_drop]
      have hd : (init ++ [e]).length - 100 ≤ (init ++ [e]).length := Nat.sub_le _ _
      rw [← List.drop_append_of_le_length hd, List.drop_drop]
      have hassoc : init ++ [e] ++ es = init ++ e :: es := by simp
      rw [hassoc]
      congr 1
      simp only [List.length_drop, List.length_append, List.length_cons, List.length_nil]
      omega

/-- C5: starting from any timeline obeying the 100-entry invariant, the list
has length at most 100 after every `addEvent` insertion, and the timeline
after any sequence of insertions consists of exactly the most recent entries
in insertion order (the suffix of the virtual unbounded log, oldest dropped
first); in particular once more than 100 events exist in total, exactly 100
are retained. -/
theorem addEvent_timeline (init es : List ActivityEvent) (hinit : init.length ≤ 100) :
    (∀ k : Nat, (List.foldl addEvent init (es.take k)).length ≤ 100) ∧
    List.foldl addEvent init es = (init ++ es).drop ((init ++ es).length - 100) ∧
    (100 < (init ++ es).length → (List.foldl addEvent init es).length = 100) := by
  refine ⟨?_, foldl_addEvent_eq es init hinit, ?_⟩
  · intro k
    rw [foldl_addEvent_eq (es.take k) init hinit]
    simp only [List.length_drop]
    omega
  · intro hlong
    rw [foldl_addEvent_eq es init hinit]
    simp only [List.length_drop]
    omega

/-- C5 witness: inserting 101 events into an empty timeline retains exactly
the most recent 100. -/
theorem addEvent_timeline_witness :
    (List.foldl addEvent [] (List.replicate 101 ⟨"t", EventType.info, "m"⟩)).length = 100 :=
  (addEvent_timeline [] (List.replicate 101 ⟨"t", EventType.info, "m"⟩) (by decide)).2.2
    (by simp)

/- =================== Claim C4: canonical serialization =================== -/

theorem charsLe_refl (as : List Char) : charsLe as as = true := by
  induction as with
  | nil => rfl
  | cons a as ih => simp [charsLe, ih]

theorem charsLe_total (as bs : List Char) : charsLe as bs = true ∨ charsLe bs as = true := by
  induction as generalizing bs with
  | nil => left; rfl
  | cons a as ih =>
    cases bs with
    | nil => right; rfl
    | cons b bs =>
      rcases Nat.lt_trichotomy a.toNat b.toNat with h | h | h
      · left; simp [charsLe, h]
      · rcases ih bs with h2 | h2
        · left; simp [charsLe, h, h2]
        · right; simp [charsLe, h.symm, h2]
      · right; simp [charsLe, h]

theorem charsLe_trans {as bs cs : List Char} (h1 : charsLe as bs = true)
    (h2 : charsLe bs cs = true) : charsLe as cs = true := by
  induction as generalizing bs cs with
  | nil => rfl
  | cons a as ih =>
    cases bs with
    | nil => simp [charsLe] at h1
    | cons b bs =>
      cases cs with
      | nil => simp [charsLe] at h2
      | cons c cs =>
        simp only [charsLe] at h1 h2 ⊢
        split at h1
        · rename_i hab
          split at h2
          · rename_i hbc
            rw [if_pos (by omega)]
          · split at h2
            · simp at h2
            · rename_i hbc1 hbc2
              rw [if_pos (by omega)]
        · split at h1
          · simp at h1
          · rename_i hab1 hab2
            split at h2
            · rename_i hbc
              rw [if_pos (by omega)]
            · split at h2
              · simp at h2
              · rename_i hbc1 hbc2
                rw [if_neg (by omega), if_neg (by omega)]
                exact ih h1 h2

theorem charsLe_antisymm {as bs : List Char} (h1 : charsLe as bs = true)
    (h2 : charsLe bs as = true) : as = bs := by
  induction as generalizing bs with
  | nil =>
    cases bs with
    | nil => rfl
    | cons b bs => simp [charsLe] at h2
  | cons a as ih =>
    cases bs with
    | nil => simp [charsLe] at h1
    | cons b bs =>
      simp only [charsLe] at h1 h2
      split at h1
      · rename_i hab
        rw [if_neg (by omega), if_pos (by omega)] at h2
        simp at h2
      · split at h1
        · simp at h1
        · rename_i h1a h1b
          have hab : a.toNat = b.toNat := by omega
          have hc : a = b := by
            unfold Char.toNat at hab
            exact Char.eq_of_val_eq (UInt32.eq_of_val_eq (Fin.eq_of_val_eq hab))
          subst hc
          rw [if_neg (by omega), if_neg (by omega)] at h2
          rw [ih h1 h2]

theorem insertField_perm (p : String × Json) (l : List (String × Json)) :
    (insertField p l).Perm (p :: l) := by
  induction l with
  | nil => exact List.Perm.refl _
  | cons q qs ih =>
    unfold insertField
    split
    · exact List.Perm.refl _
    · exact (ih.cons q).trans (List.Perm.swap p q qs)

theorem sortFields_perm (fs : List (String × Json)) : (sortFields fs).Perm fs := by
  induction fs with
  | nil => exact List.Perm.refl _
  | cons p ps ih =>
    unfold sortFields at *
    simp only [List.foldr_cons]
    exact (insertField_perm p _).trans (ih.cons p)

theorem insertField_pairwise {l : List (String × Json)} (p : String × Json)
    (h : List.Pairwise (fun x y => keyLe x y = true) l) :
    List.Pairwise (fun x y => keyLe x y = true) (insertField p l) := by
  induction l with
  | nil => simp [insertField]
  | cons q qs ih =>
    rcases List.pairwise_cons.mp h with ⟨hq, hqs⟩
    unfold insertField
    split
    · rename_i hpq
      refine List.pairwise_cons.mpr ⟨?_, h⟩
      intro x hx
      rcases List.mem_cons.mp hx with hx | hx
      · subst hx; exact hpq
      · exact charsLe_trans hpq (hq x hx)
    · rename_i hpq
      have hqp : keyLe q p = true := by
        rcases charsLe_total p.1.data q.1.data with hle | hle
        · exact absurd hle hpq
        · exact hle
      refine List.pairwise_cons.mpr ⟨?_, ih hqs⟩
      intro x hx
      rcases List.mem_cons.mp ((insertField_perm p qs).mem_iff.mp hx) with hx | hx
      · subst hx; exact hqp
      · exact hq x hx

theorem sortFields_pairwise (fs : List (String × Json)) :
    List.Pairwise (fun x y => keyLe x y = true) (sortFields fs) := by
  induction fs with
  | nil => simp [sortFields]
  | cons p ps ih =>
    unfold sortFields at *
    simp only [List.foldr_cons]
    exact insertField_pairwise p ih

theorem sortFields_eq_of_perm {fs gs : List (String × Json)} (hp : fs.Perm gs)
    (hn : (gs.map Prod.fst).Nodup) : sortFields fs = sortFields gs := by
  have hperm : (sortFields fs).Perm (sortFields gs) :=
    ((sortFields_perm fs).trans hp).trans (sortFields_perm gs).symm
  have hnf : ((sortFields fs).map Prod.fst).Nodup :=
    hn.perm (((sortFields_perm fs).trans hp).map Prod.fst).symm
  have hng : ((sortFields gs).map Prod.fst).Nodup :=
    hn.perm ((sortFields_perm gs).map Prod.fst).symm
  haveI : IsAntisymm (String × Json) (fun x y => keyLe x y = true ∧ x.1 ≠ y.1) := by
    refine ⟨?_⟩
    rintro a b ⟨hab, hne⟩ ⟨hba, _⟩
    exact absurd (String.ext (charsLe_antisymm hab hba)) hne
  have hsorted : ∀ l : List (String × Json),
      List.Pairwise (fun x y => keyLe x y = true) l → (l.map Prod.fst).Nodup →
      List.Sorted (fun x y : String × Json => keyLe x y = true ∧ x.1 ≠ y.1) l := by
    intro l h1 h2
    have h2p : List.Pairwise (fun x y : String × Json => x.1 ≠ y.1) l :=
      List.pairwise_map.mp h2
    exact h1.and h2p
  exact List.eq_of_perm_of_sorted hperm
    (hsorted _ (sortFields_pairwise fs) hnf)
    (hsorted _ (sortFields_pairwise gs) hng)

theorem canonFields_keys (fs : List (String × Json)) :
    (canonFields fs).map Prod.fst = fs.map Prod.fst := by
  induction fs with
  | nil => rfl
  | cons p ps ih =>
    obtain ⟨k, v⟩ := p
    simp [canonFields, ih]

theorem canonFields_eq_map (fs : List (String × Json)) :
    canonFields fs = fs.map (fun p => (p.1, canon p.2)) := by
  induction fs with
  | nil => rfl
  | cons p ps ih =>
    obtain ⟨k, v⟩ := p
    simp [canonFields, ih]

theorem canonList_eq_map (xs : List Json) : canonList xs = xs.map canon := by
  induction xs with
  | nil => rfl
  | cons x xs ih => simp [canonList, ih]

theorem jsonEqv_obj_keys {a b : Json} (h : JsonEqv a b) :
    ∀ {fs gs : List (String × Json)}, a = Json.obj fs → b = Json.obj gs →
      (fs.map Prod.fst).Perm (gs.map Prod.fst) := by
  induction h with
  | null => intro fs gs hfa _; exact Json.noConfusion hfa
  | bool b => intro fs gs hfa _; exact Json.noConfusion hfa
  | num n => intro fs gs hfa _; exact Json.noConfusion hfa
  | str s => intro fs gs hfa _; exact Json.noConfusion hfa
  | arrNil => intro fs gs hfa _; exact Json.noConfusion hfa
  | arrCons h1 h2 ih1 ih2 => intro fs gs hfa _; exact Json.noConfusion hfa
  | objNil =>
      intro fs gs hfa hfb
      injection hfa with hfa
      injection hfb with hfb
      subst hfa; subst hfb
      exact List.Perm.refl _
  | objCons h1 h2 ih1 ih2 =>
      intro fs gs hfa hfb
      injection hfa with hfa
      injection hfb with hfb
      subst hfa; subst hfb
      simp only [List.map_cons]
      exact (ih2 rfl rfl).cons _
  | objPerm hpm h ih =>
      intro fs gs hfa hfb
      injection hfa with hfa
      subst hfa
      exact (hpm.map Prod.fst).trans (ih rfl hfb)

theorem nodupJson_obj_iff {fs : List (String × Json)} :
    NodupJson (Json.obj fs) ↔ (fs.map Prod.fst).Nodup ∧ ∀ p ∈ fs, NodupJson p.2 := by
  induction fs with
  | nil =>
    constructor
    · intro _; exact ⟨List.nodup_nil, by simp⟩
    · intro _; exact NodupJson.objNil
  | cons p ps ih =>
    obtain ⟨k, v⟩ := p
    constructor
    · intro h
      cases h with
      | objCons hk hv hps =>
        rcases ih.mp hps with ⟨hn, hvs⟩
        refine ⟨?_, ?_⟩
        · simp only [List.map_cons, List.nodup_cons]
          exact ⟨hk, hn⟩
        · intro q hq
          rcases List.mem_cons.mp hq with h | h
          · subst h; exact hv
          · exact hvs q h
    · rintro ⟨hn, hvs⟩
      simp only [List.map_cons, List.nodup_cons] at hn
      exact NodupJson.objCons hn.1 (hvs (k, v) (by simp))
        (ih.mpr ⟨hn.2, fun q hq => hvs q (by simp [hq])⟩)

theorem canon_eqv {a b : Json} (h : JsonEqv a b) : NodupJson a → canon a = canon b := by
  induction h with
  | null => intro _; rfl
  | bool b => intro _; rfl
  | num n => intro _; rfl
  | str s => intro _; rfl
  | arrNil => intro _; rfl
  | arrCons h1 h2 ih1 ih2 =>
      intro hn
      cases hn with
      | arrCons hx hxs =>
        have e1 := ih1 hx
        have e2 := ih2 hxs
        simp only [canon] at e2
        injection e2 with e2
        simp only [canon, canonList]
        rw [e1, e2]
  | objNil => intro _; rfl
  | objCons h1 h2 ih1 ih2 =>
      intro hn
      cases hn with
      | objCons hk hv hfs =>
        rename_i k v w fs gs
        have e1 := ih1 hv
        have e2 := ih2 hfs
        simp only [canon] at e2
        injection e2 with e2
        have hkeys : (fs.map Prod.fst).Perm (gs.map Prod.fst) := jsonEqv_obj_keys h2 rfl rfl
        have hkgs : k ∉ gs.map Prod.fst := fun hmem => hk (hkeys.mem_iff.mpr hmem)
        have hngs : (gs.map Prod.fst).Nodup :=
          ((nodupJson_obj_iff.mp hfs).1).perm hkeys
        have hperm : ((k, canon w) :: canonFields fs).Perm ((k, canon w) :: canonFields gs) := by
          refine List.Perm.cons _ ?_
          have hp1 : (canonFields fs).Perm (sortFields (canonFields fs)) :=
            (sortFields_perm _).symm
          rw [e2] at hp1
          exact hp1.trans (sortFields_perm _)
        have hnodup : (((k, canon w) :: canonFields gs).map Prod.fst).Nodup := by
          simp only [List.map_cons, List.nodup_cons, canonFields_keys]
          exact ⟨hkgs, hngs⟩
        simp only [canon, canonFields]
        rw [e1]
        exact congrArg Json.obj (sortFields_eq_of_perm hperm hnodup)
  | objPerm hpm h ih =>
      rename_i fs gs hs
      intro hn
      rcases nodupJson_obj_iff.mp hn with ⟨hnf, hvf⟩
      have hng : (gs.map Prod.fst).Nodup := hnf.perm (hpm.map Prod.fst)
      have hvg : ∀ p ∈ gs, NodupJson p.2 := fun p hp => hvf p (hpm.mem_iff.mpr hp)
      have e := ih (nodupJson_obj_iff.mpr ⟨hng, hvg⟩)
      have hcf : (canonFields fs).Perm (canonFields gs) := by
        rw [canonFields_eq_map, canonFields_eq_map]
        exact hpm.map _
      have hnodup2 : ((canonFields gs).map Prod.fst).Nodup := by
        rw [canonFields_keys]
        exact hng
      have hfg : canon (Json.obj fs) = canon (Json.obj gs) := by
        simp only [canon]
        exact congrArg Json.obj (sortFields_eq_of_perm hcf hnodup2)
      exact hfg.trans e

/-- C4: `stableStringify` is invariant under reordering of object keys at any
nesting depth (for JSON values, whose objects have distinct keys); the
canonical form it serializes carries every object's own fields with keys in
lexicographically sorted order; and array element order is preserved
(each element is canonicalized in place). -/
theorem stableStringify_canonical :
    (∀ a b : Json, JsonEqv a b → NodupJson a → stableStringify a = stableStringify b) ∧
    (∀ fs : List (String × Json), ∃ gs, canon (Json.obj fs) = Json.obj gs ∧
        gs.Perm (canonFields fs) ∧
        List.Pairwise (fun k1 k2 : String => charsLe k1.data k2.data = true) (gs.map Prod.fst)) ∧
    (∀ xs : List Json,
        stableStringify (Json.arr xs) = "[" ++ renderList (xs.map canon) ++ "]") := by
  refine ⟨?_, ?_, ?_⟩
  · intro a b h hn
    unfold stableStringify
    rw [canon_eqv h hn]
  · intro fs
    refine ⟨sortFields (canonFields fs), rfl, sortFields_perm _, ?_⟩
    exact List.pairwise_map.mpr (sortFields_pairwise (canonFields fs))
  · intro xs
    unfold stableStringify
    simp only [canon]
    rw [canonList_eq_map]
    simp [renderJson]

/-- C4 witness: the spec's concrete scenario, `{a:1,b:2}` against
`{b:2,a:1}`, canonicalizes to byte-identical strings. -/
theorem stableStringify_canonical_witness :
    stableStringify exampleObjAB = stableStringify exampleObjBA :=
  stableStringify_canonical.1 exampleObjAB exampleObjBA
    (JsonEqv.objPerm (List.Perm.swap ("b", Json.num 2) ("a", Json.num 1) [])
      (JsonEqv.objCons (JsonEqv.num 2) (JsonEqv.objCons (JsonEqv.num 1) JsonEqv.objNil)))
    (NodupJson.objCons (by decide) (NodupJson.num 1)
      (NodupJson.objCons (by decide) (NodupJson.num 2) NodupJson.objNil))

/- ================== Claim C3: webhook signature acceptance ================ -/

/-- C3: for a job found in the store, the webhook handler accepts a claimed
signature exactly when it equals the hex HMAC-SHA256 of the canonicalized
payload under the job's stored secret; an equal-length differing signature
is rejected with the invalid-signature authentication error leaving the
store unchanged; and an unknown job id is rejected leaving the store
unchanged. -/
theorem handleWorkerWebhook_auth (hmacHex : String → String → String) (store : WorkerStore)
    (sig : String) (p : WorkerProgressDto) (now : String) :
    (∀ job : FlyWorkerJobMetadata, storeGet store p.jobId = some job →
      ((handleWorkerWebhook hmacHex store sig p now).1.isOk = true ↔
          sig = hmacHex job.webhookSecret (stableStringify (payloadToJson p))) ∧
      (sig ≠ hmacHex job.webhookSecret (stableStringify (payloadToJson p)) →
        sig.utf8ByteSize =
          (hmacHex job.webhookSecret (stableStringify (payloadToJson p))).utf8ByteSize →
        handleWorkerWebhook hmacHex store sig p now = (.error .invalidSignature, store))) ∧
    (storeGet store p.jobId = none →
      handleWorkerWebhook hmacHex store sig p now = (.error .notFound, store)) := by
  constructor
  · intro job hjob
    unfold handleWorkerWebhook
    rw [hjob]
    dsimp only
    split_ifs with h1 h2
    · have hne : sig ≠ hmacHex job.webhookSecret (stableStringify (payloadToJson p)) :=
        fun heq => h1 (by rw [heq])
      refine ⟨?_, ?_⟩
      · simp [Except.isOk, Except.toBool, hne]
      · intro _ hlen
        exact absurd hlen h1
    · refine ⟨?_, ?_⟩
      · simp [Except.isOk, Except.toBool, h2]
      · intro _ _
        rfl
    · have heq : sig = hmacHex job.webhookSecret (stableStringify (payloadToJson p)) :=
        not_ne_iff.mp h2
      refine ⟨?_, ?_⟩
      · simp [Except.isOk, Except.toBool, heq]
      · intro hne _
        exact absurd heq hne
  · intro hjob
    unfold handleWorkerWebhook
    rw [hjob]

/-- C3 witness: with a concrete digest oracle, store and payload, the exact
expected signature is accepted while an equal-length different signature is
rejected with the store unchanged. -/
theorem handleWorkerWebhook_auth_witness :
    (handleWorkerWebhook (constHmac "ab") sampleStore "ab" samplePayload "t1").1.isOk = true ∧
    handleWorkerWebhook (constHmac "ab") sampleStore "xy" samplePayload "t1" =
      (.error .invalidSignature, sampleStore) := by
  constructor
  · exact ((handleWorkerWebhook_auth (constHmac "ab") sampleStore "ab" samplePayload "t1").1
      sampleJob rfl).1.mpr rfl
  · exact ((handleWorkerWebhook_auth (constHmac "ab") sampleStore "xy" samplePayload "t1").1
      sampleJob rfl).2 (by decide) (by decide)

/- ============ Claim C10: signature of different byte length ============== -/

/-- C10: when the digest function produces 64-byte hex strings (as
`createHmac('sha256', _).digest('hex')` does), a webhook for a known job
whose claimed signature has a different byte length makes the handler raise
the buffer-length-mismatch error (the `timingSafeEqual` `RangeError`), not
the regular invalid-signature error, and the store is unchanged. -/
theorem handleWorkerWebhook_lengthMismatch (hmacHex : String → String → String)
    (hlen : ∀ s m, (hmacHex s m).utf8ByteSize = 64)
    (store : WorkerStore) (sig : String) (p : WorkerProgressDto) (now : String)
    (job : FlyWorkerJobMetadata) (hjob : storeGet store p.jobId = some job)
    (hsig : sig.utf8ByteSize ≠ 64) :
    handleWorkerWebhook hmacHex store sig p now = (.error .bufferLengthMismatch, store) := by
  unfold handleWorkerWebhook
  rw [hjob]
  dsimp only
  rw [if_pos]
  rw [hlen]
  exact hsig

/-- C10 witness: a five-byte signature against a 64-character expected digest
raises the length-mismatch error at a concrete job and payload. -/
theorem handleWorkerWebhook_lengthMismatch_witness :
    handleWorkerWebhook (constHmac hex64) sampleStore "short" samplePayload "t1" =
      (.error .bufferLengthMismatch, sampleStore) := by
  have hlen : ∀ s m, (constHmac hex64 s m).utf8ByteSize = 64 := by
    intro s m
    show hex64.utf8ByteSize = 64
    decide
  exact handleWorkerWebhook_lengthMismatch (constHmac hex64) hlen
    sampleStore "short" samplePayload "t1" sampleJob rfl (by decide)

/- ============ Projection lemmas for the webhook merge step =============== -/

theorem foldl_addEventJob_proj (es : List String) (now : String) :
    ∀ j : FlyWorkerJobMetadata,
      (es.foldl (fun acc e => addEventJob acc now EventType.error e) j).progress.phase =
          j.progress.phase ∧
      (es.foldl (fun acc e => addEventJob acc now EventType.error e) j).progress.current =
          j.progress.current ∧
      (es.foldl (fun acc e => addEventJob acc now EventType.error e) j).progress.total =
          j.progress.total ∧
      (es.foldl (fun acc e => addEventJob acc now EventType.error e) j).progress.currentFile =
          j.progress.currentFile ∧
      (es.foldl (fun acc e => addEventJob acc now EventType.error e) j).progress.bytesDownloaded =
          j.progress.bytesDownloaded ∧
      (es.foldl (fun acc e => addEventJob acc now EventType.error e) j).progress.totalBytes =
          j.progress.totalBytes ∧
      (es.foldl (fun acc e => addEventJob acc now EventType.error e) j).progress.photosImported =
          j.progress.photosImported ∧
      (es.foldl (fun acc e => addEventJob acc now EventType.error e) j).progress.albumsFound =
          j.progress.albumsFound ∧
      (es.foldl (fun acc e => addEventJob acc now EventType.error e) j).progress.errors =
          j.progress.errors ∧
      (es.foldl (fun acc e => addEventJob acc now EventType.error e) j).webhookSecret =
          j.webhookSecret ∧
      (es.foldl (fun acc e => addEventJob acc now EventType.error e) j).status = j.status := by
  induction es with
  | nil =>
      intro j
      exact ⟨rfl, rfl, rfl, rfl, rfl, rfl, rfl, rfl, rfl, rfl, rfl⟩
  | cons e es ih =>
      intro j
      simp only [List.foldl_cons]
      exact ih _

theorem foldl_addEventJob_events (es : List String) (now : String) :
    ∀ j : FlyWorkerJobMetadata,
      (es.foldl (fun acc e => addEventJob acc now EventType.error e) j).progress.events =
        es.foldl (fun evs e => addEvent evs ⟨now, EventType.error, e⟩) j.progress.events := by
  induction es with
  | nil => intro j; rfl
  | cons e es ih =>
      intro j
      simp only [List.foldl_cons]
      exact ih _

theorem nonEventView_updatedAt (j : FlyWorkerJobMetadata) (now : String) :
    nonEventView { j with updatedAt := now } = nonEventView j := rfl

theorem addEventJob_view (j : FlyWorkerJobMetadata) (now : String) (t : EventType)
    (m : String) : nonEventView (addEventJob j now t m) = nonEventView j := rfl

theorem foldl_addEventJob_view (es : List String) (now : String) :
    ∀ j : FlyWorkerJobMetadata,
      nonEventView (es.foldl (fun acc e => addEventJob acc now EventType.error e) j) =
        nonEventView j := by
  induction es with
  | nil => intro j; rfl
  | cons e es ih =>
      intro j
      simp only [List.foldl_cons]
      exact ih _

theorem webhookAppendErrors_view (j : FlyWorkerJobMetadata) (p : WorkerProgressDto)
    (now : String) :
    nonEventView (webhookAppendErrors j p now) =
      nonEventView { j with progress := { j.progress with
        errors := j.progress.errors ++ (match p.errors with
          | some es => es
          | none => []) } } := by
  unfold webhookAppendErrors
  rcases herr : p.errors with _ | es
  · simp [nonEventView]
  · dsimp only
    by_cases hes : 0 < es.length
    · rw [if_pos hes, foldl_addEventJob_view]
    · rw [if_neg hes]
      have hnil : es = [] := List.length_eq_zero.mp (by omega)
      subst hnil
      simp [nonEventView]

theorem webhookPhaseEvents_view (j : FlyWorkerJobMetadata) (p : WorkerProgressDto)
    (now : String) (prevPhase : Phase) :
    nonEventView (webhookPhaseEvents j p now prevPhase) = nonEventView j := by
  unfold webhookPhaseEvents
  split
  · split <;> rfl
  · rfl

theorem webhookDownloadEvent_view (j : FlyWorkerJobMetadata) (p : WorkerProgressDto)
    (now : String) (prevCurrent : Int) :
    nonEventView (webhookDownloadEvent j p now prevCurrent) = nonEventView j := by
  unfold webhookDownloadEvent
  split
  · split <;> rfl
  · rfl

theorem webhookAlbumEvent_view (j : FlyWorkerJobMetadata) (p : WorkerProgressDto)
    (now : String) :
    nonEventView (webhookAlbumEvent j p now) = nonEventView j := by
  unfold webhookAlbumEvent
  split
  · split <;> rfl
  · rfl

theorem applyWebhook_view (job : FlyWorkerJobMetadata) (p : WorkerProgressDto) (now : String) :
    nonEventView (applyWebhook job p now) =
      (p.phase, p.progress.current, p.progress.total, p.progress.currentFile,
       p.bytesDownloaded, p.totalBytes,
       (match p.photosImported with
        | some n => n
        | none => job.progress.photosImported),
       (match p.albumsFound with
        | some n => n
        | none => job.progress.albumsFound),
       job.progress.errors ++ (match p.errors with
        | some es => es
        | none => []),
       job.webhookSecret, phaseToStatus p.phase,
       job.jobId, job.userId, job.machineId, job.volumeId, job.tempApiKeyId,
       job.createdAt) := by
  unfold applyWebhook
  dsimp only
  rw [nonEventView_updatedAt, webhookAlbumEvent_view, webhookDownloadEvent_view,
      webhookPhaseEvents_view, webhookAppendErrors_view]
  unfold webhookMergeData
  dsimp only
  rcases hpi : p.photosImported with _ | n1 <;> rcases haf : p.albumsFound with _ | n2 <;>
    simp [nonEventView]

theorem webhookAppendErrors_noErrors (j : FlyWorkerJobMetadata) (p : WorkerProgressDto)
    (now : String) (h : p.errors = none) : webhookAppendErrors j p now = j := by
  unfold webhookAppendErrors
  rw [h]

theorem webhookPhaseEvents_samePhase (j : FlyWorkerJobMetadata) (p : WorkerProgressDto)
    (now : String) (prevPhase : Phase) (h : p.phase = prevPhase) :
    webhookPhaseEvents j p now prevPhase = j := by
  unfold webhookPhaseEvents
  rw [if_neg (by simp [h])]

theorem webhookDownloadEvent_noFile (j : FlyWorkerJobMetadata) (p : WorkerProgressDto)
    (now : String) (prevCurrent : Int) (h : p.progress.currentFile = none) :
    webhookDownloadEvent j p now prevCurrent = j := by
  unfold webhookDownloadEvent
  rw [if_neg (by simp [truthy, h])]

theorem webhookAlbumEvent_none (j : FlyWorkerJobMetadata) (p : WorkerProgressDto)
    (now : String) (h : p.albumsFound = none) : webhookAlbumEvent j p now = j := by
  unfold webhookAlbumEvent
  rw [h]

/-- An authenticated webhook (signature equal to the expected digest) always
succeeds: it returns the cleanup-dispatch flag and persists the merged job. -/
theorem handleWorkerWebhook_ok (hmacHex : String → String → String) (store : WorkerStore)
    (p : WorkerProgressDto) (now : String) (job : FlyWorkerJobMetadata)
    (hjob : storeGet store p.jobId = some job) :
    handleWorkerWebhook hmacHex store
        (hmacHex job.webhookSecret (stableStringify (payloadToJson p))) p now =
      (.ok (phaseTerminal p.phase), storeSet store p.jobId (applyWebhook job p now)) := by
  unfold handleWorkerWebhook
  rw [hjob]
  dsimp only
  rw [if_neg (by simp), if_neg (by simp)]

/- ================ Claim C7: merge frame conditions (corrected) =========== -/

/-- C7 counterexample: the claim says a payload omitting `bytesDownloaded`
leaves the stored byte counter unchanged, but the handler assigns it
unconditionally: a stored value of `some 7` is cleared to `none` by an
authenticated payload that omits the field. -/
theorem handleWorkerWebhook_bytes_cleared :
    sampleJobBytes.progress.bytesDownloaded = some 7 ∧
    samplePayload.bytesDownloaded = none ∧
    (storeGet (handleWorkerWebhook (constHmac "ab") sampleStoreBytes "ab"
        samplePayload "t1").2 "job-1").map (fun j => j.progress.bytesDownloaded) =
      some none := by
  refine ⟨rfl, rfl, ?_⟩
  rfl

/-- C7 (amended): for every authenticated webhook, `photosImported` and
`albumsFound` are overwritten only when present in the payload and left
unchanged when omitted; `progress.current` and `progress.total` are always
overwritten; the payload's errors are appended to (never replace) the stored
list; but the byte counters `bytesDownloaded`/`totalBytes` are overwritten
unconditionally with the payload's value — an omitted byte counter clears
the stored field rather than leaving it unchanged. -/
theorem handleWorkerWebhook_merge (hmacHex : String → String → String) (store : WorkerStore)
    (p : WorkerProgressDto) (now : String) (job : FlyWorkerJobMetadata)
    (hjob : storeGet store p.jobId = some job) :
    handleWorkerWebhook hmacHex store
        (hmacHex job.webhookSecret (stableStringify (payloadToJson p))) p now =
      (.ok (phaseTerminal p.phase), storeSet store p.jobId (applyWebhook job p now)) ∧
    (applyWebhook job p now).progress.current = p.progress.current ∧
    (applyWebhook job p now).progress.total = p.progress.total ∧
    (p.photosImported = none →
      (applyWebhook job p now).progress.photosImported = job.progress.photosImported) ∧
    (∀ n, p.photosImported = some n → (applyWebhook job p now).progress.photosImported = n) ∧
    (p.albumsFound = none →
      (applyWebhook job p now).progress.albumsFound = job.progress.albumsFound) ∧
    (∀ n, p.albumsFound = some n → (applyWebhook job p now).progress.albumsFound = n) ∧
    (applyWebhook job p now).progress.errors =
      job.progress.errors ++ (match p.errors with
        | some es => es
        | none => []) ∧
    (applyWebhook job p now).progress.bytesDownloaded = p.bytesDownloaded ∧
    (applyWebhook job p now).progress.totalBytes = p.totalBytes := by
  have hv := applyWebhook_view job p now
  refine ⟨handleWorkerWebhook_ok hmacHex store p now job hjob,
    congrArg (fun t => t.2.1) hv, congrArg (fun t => t.2.2.1) hv, ?_, ?_, ?_, ?_,
    congrArg (fun t => t.2.2.2.2.2.2.2.2.1) hv,
    congrArg (fun t => t.2.2.2.2.1) hv, congrArg (fun t => t.2.2.2.2.2.1) hv⟩
  · intro hn
    have h7 := congrArg (fun t => t.2.2.2.2.2.2.1) hv
    rw [hn] at h7
    exact h7
  · intro n hn
    have h7 := congrArg (fun t => t.2.2.2.2.2.2.1) hv
    rw [hn] at h7
    exact h7
  · intro hn
    have h8 := congrArg (fun t => t.2.2.2.2.2.2.2.1) hv
    rw [hn] at h8
    exact h8
  · intro n hn
    have h8 := congrArg (fun t => t.2.2.2.2.2.2.2.1) hv
    rw [hn] at h8
    exact h8

/-- C7 witness: concrete authenticated webhook against the byte-carrying job,
hypotheses discharged; `current` is overwritten and the omitted
`photosImported` is preserved. -/
theorem handleWorkerWebhook_merge_witness :
    (applyWebhook sampleJobBytes samplePayload "t1").progress.current = 5 ∧
    (applyWebhook sampleJobBytes samplePayload "t1").progress.photosImported =
      sampleJobBytes.progress.photosImported := by
  have h := handleWorkerWebhook_merge (constHmac "ab") sampleStoreBytes samplePayload "t1"
    sampleJobBytes rfl
  exact ⟨h.2.1, h.2.2.2.1 rfl⟩

/- ============ Claim C6: out-of-order updates, last-write-wins ============ -/

/-- C6: for any persisted job in the `downloading` phase, two authenticated
webhooks reporting `current=5,total=10` and then `current=3,total=10` are
both accepted (no exception), the final persisted `current` is `3`
(last-write-wins, the out-of-order update is neither rejected nor
discarded), the stored errors list only grows (the first payload's error is
appended, nothing is ever removed), and the events list only grows (by the
appended error event, under the bounded-timeline insertion). -/
theorem handleWorkerWebhook_lastWriteWins (hmacHex : String → String → String)
    (store : WorkerStore) (jid now1 now2 : String) (job : FlyWorkerJobMetadata)
    (hjob : storeGet store jid = some job)
    (hph : job.progress.phase = Phase.downloading) :
    (handleWorkerWebhook hmacHex store
        (hmacHex job.webhookSecret (stableStringify (payloadToJson (payloadOutOfOrderA jid))))
        (payloadOutOfOrderA jid) now1).1 = .ok false ∧
    (handleWorkerWebhook hmacHex
        (handleWorkerWebhook hmacHex store
          (hmacHex job.webhookSecret (stableStringify (payloadToJson (payloadOutOfOrderA jid))))
          (payloadOutOfOrderA jid) now1).2
        (hmacHex job.webhookSecret (stableStringify (payloadToJson (payloadOutOfOrderB jid))))
        (payloadOutOfOrderB jid) now2).1 = .ok false ∧
    ∃ jm, storeGet (handleWorkerWebhook hmacHex
        (handleWorkerWebhook hmacHex store
          (hmacHex job.webhookSecret (stableStringify (payloadToJson (payloadOutOfOrderA jid))))
          (payloadOutOfOrderA jid) now1).2
        (hmacHex job.webhookSecret (stableStringify (payloadToJson (payloadOutOfOrderB jid))))
        (payloadOutOfOrderB jid) now2).2 jid = some jm ∧
      jm.progress.current = 3 ∧
      jm.progress.total = 10 ∧
      jm.progress.errors = job.progress.errors ++ ["boom"] ∧
      jm.progress.events = addEvent job.progress.events ⟨now1, EventType.error, "boom"⟩ := by
  have hv1 := applyWebhook_view job (payloadOutOfOrderA jid) now1
  have hsec : (applyWebhook job (payloadOutOfOrderA jid) now1).webhookSecret =
      job.webhookSecret := congrArg (fun t => t.2.2.2.2.2.2.2.2.2.1) hv1
  have hph1 : (applyWebhook job (payloadOutOfOrderA jid) now1).progress.phase =
      Phase.downloading := congrArg (fun t => t.1) hv1
  have hA : handleWorkerWebhook hmacHex store
      (hmacHex job.webhookSecret (stableStringify (payloadToJson (payloadOutOfOrderA jid))))
      (payloadOutOfOrderA jid) now1 =
      (Except.ok false, storeSet store jid (applyWebhook job (payloadOutOfOrderA jid) now1)) :=
    handleWorkerWebhook_ok hmacHex store (payloadOutOfOrderA jid) now1 job hjob
  have hB : handleWorkerWebhook hmacHex
      (storeSet store jid (applyWebhook job (payloadOutOfOrderA jid) now1))
      (hmacHex (applyWebhook job (payloadOutOfOrderA jid) now1).webhookSecret
        (stableStringify (payloadToJson (payloadOutOfOrderB jid))))
      (payloadOutOfOrderB jid) now2 =
      (Except.ok false,
        storeSet (storeSet store jid (applyWebhook job (payloadOutOfOrderA jid) now1)) jid
          (applyWebhook (applyWebhook job (payloadOutOfOrderA jid) now1)
            (payloadOutOfOrderB jid) now2)) :=
    handleWorkerWebhook_ok hmacHex _ (payloadOutOfOrderB jid) now2 _
      (storeGet_storeSet_self store jid _)
  rw [hsec] at hB
  have hv2 := applyWebhook_view (applyWebhook job (payloadOutOfOrderA jid) now1)
    (payloadOutOfOrderB jid) now2
  have hev1 : (applyWebhook job (payloadOutOfOrderA jid) now1).progress.events =
      addEvent job.progress.events ⟨now1, EventType.error, "boom"⟩ := by
    unfold applyWebhook
    dsimp only
    rw [webhookPhaseEvents_samePhase _ _ _ _ hph.symm,
        webhookDownloadEvent_noFile _ _ _ _ rfl,
        webhookAlbumEvent_none _ _ _ rfl]
    rfl
  have hev2 : (applyWebhook (applyWebhook job (payloadOutOfOrderA jid) now1)
      (payloadOutOfOrderB jid) now2).progress.events =
      (applyWebhook job (payloadOutOfOrderA jid) now1).progress.events := by
    unfold applyWebhook
    dsimp only
    rw [webhookAppendErrors_noErrors _ _ _ rfl,
        webhookPhaseEvents_samePhase _ _ _ _ hph1.symm,
        webhookDownloadEvent_noFile _ _ _ _ rfl,
        webhookAlbumEvent_none _ _ _ rfl]
    rfl
  have herr1 : (applyWebhook job (payloadOutOfOrderA jid) now1).progress.errors =
      job.progress.errors ++ ["boom"] := congrArg (fun t => t.2.2.2.2.2.2.2.2.1) hv1
  have herr2 : (applyWebhook (applyWebhook job (payloadOutOfOrderA jid) now1)
      (payloadOutOfOrderB jid) now2).progress.errors =
      (applyWebhook job (payloadOutOfOrderA jid) now1).progress.errors := by
    have h := congrArg (fun t => t.2.2.2.2.2.2.2.2.1) hv2
    exact h.trans (by
      dsimp only [payloadOutOfOrderB]
      exact List.append_nil _)
  refine ⟨?_, ?_, applyWebhook (applyWebhook job (payloadOutOfOrderA jid) now1)
      (payloadOutOfOrderB jid) now2, ?_, ?_, ?_, ?_, ?_⟩
  · rw [hA]
  · rw [hA]
    dsimp only
    rw [hB]
  · rw [hA]
    dsimp only
    rw [hB]
    exact storeGet_storeSet_self _ jid _
  · exact congrArg (fun t => t.2.1) hv2
  · exact congrArg (fun t => t.2.2.1) hv2
  · rw [herr2, herr1]
  · rw [hev2, hev1]

/-- C6 witness: the scenario discharged at the concrete sample store and job. -/
theorem handleWorkerWebhook_lastWriteWins_witness :
    (handleWorkerWebhook (constHmac "ab") sampleStore
        (constHmac "ab" sampleJob.webhookSecret
          (stableStringify (payloadToJson (payloadOutOfOrderA "job-1"))))
        (payloadOutOfOrderA "job-1") "t1").1 = .ok false :=
  (handleWorkerWebhook_lastWriteWins (constHmac "ab") sampleStore "job-1" "t1" "t2"
    sampleJob rfl rfl).1

/- ============== Claim C1: start rollback on machine failure ============== -/

/-- C1: when volume creation succeeds with id `v` and machine creation fails,
`Start` issues the calls create-volume, create-machine, delete-volume — the
delete invoked with exactly `v`, before the error is returned (it precedes
the end of the trace) — then attempts the API-key delete, returns the
provisioning error to the caller, and the final persisted job record has
status `failed` with exactly one error entry appended (the errors list
started empty) describing the machine-creation failure. -/
theorem createImportJobWithFlyWorker_rollback (deps : Deps) (store : WorkerStore)
    (userId jobId webhookSecret apiKeyId : String)
    (fileIds : List String) (fileSizes : List Nat)
    (tok : GoogleTokens) (oauth : OAuthConfig) (url : String) (now : String)
    (v e : String)
    (hv : deps.createVolumeResult = .ok v)
    (hm : deps.createMachineResult = .error e)
    (hoauth : oauth.enabled = true ∧ oauth.clientId ≠ "" ∧ oauth.clientSecret ≠ "") :
    (createImportJobWithFlyWorker deps store userId jobId webhookSecret apiKeyId fileIds
        fileSizes (some tok) oauth (some url) now).1 = .error (.provisioning e) ∧
    (createImportJobWithFlyWorker deps store userId jobId webhookSecret apiKeyId fileIds
        fileSizes (some tok) oauth (some url) now).2.2 =
      [.createVolume (calculateVolumeSizeGb fileSizes), .createMachine v,
       .deleteVolume v deps.deleteVolumeOk,
       .apiKeyDelete userId apiKeyId deps.apiKeyDeleteOk] ∧
    (storeGet (createImportJobWithFlyWorker deps store userId jobId webhookSecret apiKeyId
        fileIds fileSizes (some tok) oauth (some url) now).2.1 jobId).map
      (fun j => j.status) = some JobStatus.failed ∧
    (storeGet (createImportJobWithFlyWorker deps store userId jobId webhookSecret apiKeyId
        fileIds fileSizes (some tok) oauth (some url) now).2.1 jobId).map
      (fun j => j.progress.errors) = some [s!"Failed to create worker: {e}"] := by
  have hw : createWorker deps fileSizes =
      (.error e, [.createVolume (calculateVolumeSizeGb fileSizes), .createMachine v,
                  .deleteVolume v deps.deleteVolumeOk]) := by
    unfold createWorker
    rw [hv, hm]
  unfold createImportJobWithFlyWorker
  dsimp only
  rw [if_neg (not_not_intro hoauth), hw]
  dsimp only
  refine ⟨rfl, rfl, ?_, ?_⟩
  · rw [storeGet_storeSet_self]
    rfl
  · rw [storeGet_storeSet_self]
    rfl

/-- C1 witness: the rollback scenario discharged at concrete oracles and
inputs. -/
theorem createImportJobWithFlyWorker_rollback_witness :
    (createImportJobWithFlyWorker depsMachineFail [] "user-1" "job-9" "sec" "key-9"
        ["f1"] [1000] (some sampleTokens) sampleOAuth (some "https://immich.example") "t0").1 =
      .error (.provisioning "machine boom") :=
  (createImportJobWithFlyWorker_rollback depsMachineFail [] "user-1" "job-9" "sec" "key-9"
    ["f1"] [1000] sampleTokens sampleOAuth "https://immich.example" "t0"
    "vol-1" "machine boom" rfl rfl (by decide)).1

/- =============== Claim C2: cleanup idempotence (corrected) =============== -/

/-- Unfolding of `cleanupWorkerJob` when the job is found. -/
theorem cleanupWorkerJob_found (deps : Deps) (store : WorkerStore) (jobId now : String)
    (job : FlyWorkerJobMetadata) (hjob : storeGet store jobId = some job) :
    cleanupWorkerJob deps store jobId now =
      (storeSet (storeSet store jobId { job with status := JobStatus.cleanup, updatedAt := now })
         jobId { job with status := JobStatus.cleanup, updatedAt := now },
       (if job.tempApiKeyId ≠ "" then
          [ExtCall.apiKeyDelete job.userId job.tempApiKeyId deps.apiKeyDeleteOk]
        else []) ++
       (if job.machineId ≠ "" ∧ job.volumeId ≠ "" then
          [ExtCall.flyCleanup job.machineId job.volumeId deps.flyCleanupOk]
        else [])) := by
  unfold cleanupWorkerJob
  rw [hjob]

/-- C2 counterexample: with a job whose temporary API key is set and whose
first revocation reported success (`apiKeyDeleteOk = true` is recorded in
the first call's trace), the second `Cleanup` call invokes the credential
revocation again — its trace contains the same `apiKeyDelete` call —
contradicting the claim that a successful first revocation suppresses it. -/
theorem cleanupWorkerJob_reRevokes :
    (cleanupWorkerJob depsAllOk sampleStore "job-1" "t1").2 =
      [.apiKeyDelete "user-1" "key-1" true, .flyCleanup "machine-1" "volume-1" true] ∧
    (cleanupWorkerJob depsAllOk (cleanupWorkerJob depsAllOk sampleStore "job-1" "t1").1
        "job-1" "t2").2 =
      [.apiKeyDelete "user-1" "key-1" true, .flyCleanup "machine-1" "volume-1" true] :=
  ⟨rfl, rfl⟩

/-- C2 (amended): calling `Cleanup` twice produces the same final persisted
status (`cleanup`) as calling it once, and the second call completes without
error (every teardown sub-step is swallowed, so the operation is total); but
the second call re-issues exactly the same best-effort external calls —
including the credential revocation whenever `tempApiKeyId` is set — because
no revocation outcome is recorded. -/
theorem cleanupWorkerJob_idempotent_status (deps : Deps) (store : WorkerStore)
    (jobId now1 now2 : String) (job : FlyWorkerJobMetadata)
    (hjob : storeGet store jobId = some job) :
    (storeGet (cleanupWorkerJob deps store jobId now1).1 jobId).map (fun j => j.status) =
      some JobStatus.cleanup ∧
    (storeGet (cleanupWorkerJob deps (cleanupWorkerJob deps store jobId now1).1 jobId now2).1
        jobId).map (fun j => j.status) = some JobStatus.cleanup ∧
    (cleanupWorkerJob deps (cleanupWorkerJob deps store jobId now1).1 jobId now2).2 =
      (cleanupWorkerJob deps store jobId now1).2 := by
  have h1 := cleanupWorkerJob_found deps store jobId now1 job hjob
  have hget1 : storeGet (cleanupWorkerJob deps store jobId now1).1 jobId =
      some { job with status := JobStatus.cleanup, updatedAt := now1 } := by
    rw [h1]
    exact storeGet_storeSet_self _ _ _
  have h2 := cleanupWorkerJob_found deps (cleanupWorkerJob deps store jobId now1).1 jobId now2
    _ hget1
  refine ⟨?_, ?_, ?_⟩
  · rw [hget1]
    rfl
  · rw [h2]
    dsimp only
    rw [storeGet_storeSet_self]
    rfl
  · rw [h2, h1]

/-- C2 witness: the double-cleanup facts discharged at the concrete store. -/
theorem cleanupWorkerJob_idempotent_status_witness :
    (cleanupWorkerJob depsAllOk (cleanupWorkerJob depsAllOk sampleStore "job-1" "t1").1
        "job-1" "t2").2 = (cleanupWorkerJob depsAllOk sampleStore "job-1" "t1").2 :=
  (cleanupWorkerJob_idempotent_status depsAllOk sampleStore "job-1" "t1" "t2" sampleJob rfl).2.2

/- ============== Claim C8: cancellation idempotence (corrected) =========== -/

/-- C8 counterexample: cancelling a job that is already in the terminal
`complete` status is not a no-op — the record is mutated to `cleanup` with a
"Cancelled by user" error appended — so cancel on a terminal job modifies
state and a second cancel appends the error again. -/
theorem cancelWorkerJob_not_noop :
    sampleJobComplete.status = JobStatus.complete ∧
    (storeGet (cancelWorkerJob depsAllOk sampleStoreComplete [] "job-1" "t1").1 "job-1").map
      (fun j => j.status) = some JobStatus.cleanup ∧
    (storeGet (cancelWorkerJob depsAllOk sampleStoreComplete [] "job-1" "t1").1 "job-1").map
      (fun j => j.progress.errors) = some ["Cancelled by user"] :=
  ⟨rfl, rfl, rfl⟩

/-- Unfolding of `cancelWorkerJob` when the worker job is found. -/
theorem cancelWorkerJob_found (deps : Deps) (store : WorkerStore) (mem : MemStore)
    (jobId now : String) (job : FlyWorkerJobMetadata)
    (hjob : storeGet store jobId = some job) :
    cancelWorkerJob deps store mem jobId now =
      ((cleanupWorkerJob deps (storeSet store jobId
          { job with status := JobStatus.failed,
                     progress := { job.progress with
                       errors := job.progress.errors ++ ["Cancelled by user"] },
                     updatedAt := now }) jobId now).1, mem,
       (cleanupWorkerJob deps (storeSet store jobId
          { job with status := JobStatus.failed,
                     progress := { job.progress with
                       errors := job.progress.errors ++ ["Cancelled by user"] },
                     updatedAt := now }) jobId now).2) := by
  unfold cancelWorkerJob
  rw [hjob]

/-- C8 (amended): cancelling a job that is unknown (to both the worker store
and the in-memory map) is a no-op success; but cancelling any known worker
job — regardless of status, terminal included — appends a "Cancelled by
user" error, forces `failed`, persists, and runs cleanup, leaving the final
persisted status `cleanup`; a second cancel repeats this and appends the
error a second time, so cancel is not idempotent on a known job. -/
theorem cancelWorkerJob_behavior (deps : Deps) (store : WorkerStore) (mem : MemStore)
    (jobId now1 now2 : String) :
    (storeGet store jobId = none → memGet mem jobId = none →
      cancelWorkerJob deps store mem jobId now1 = (store, mem, [])) ∧
    (∀ job, storeGet store jobId = some job →
      (storeGet (cancelWorkerJob deps store mem jobId now1).1 jobId).map (fun j => j.status) =
        some JobStatus.cleanup ∧
      (storeGet (cancelWorkerJob deps store mem jobId now1).1 jobId).map
        (fun j => j.progress.errors) = some (job.progress.errors ++ ["Cancelled by user"]) ∧
      (storeGet (cancelWorkerJob deps (cancelWorkerJob deps store mem jobId now1).1
          (cancelWorkerJob deps store mem jobId now1).2.1 jobId now2).1 jobId).map
        (fun j => j.progress.errors) =
        some (job.progress.errors ++ ["Cancelled by user", "Cancelled by user"])) := by
  constructor
  · intro hstore hmem
    unfold cancelWorkerJob
    rw [hstore]
    unfold cancelJob
    rw [hmem]
  · intro job hjob
    have hc1 := cancelWorkerJob_found deps store mem jobId now1 job hjob
    have hclean1 := cleanupWorkerJob_found deps (storeSet store jobId
      { job with status := JobStatus.failed,
                 progress := { job.progress with
                   errors := job.progress.errors ++ ["Cancelled by user"] },
                 updatedAt := now1 }) jobId now1 _ (storeGet_storeSet_self _ _ _)
    have hget1 : storeGet (cancelWorkerJob deps store mem jobId now1).1 jobId =
        some { job with status := JobStatus.cleanup,
                        progress := { job.progress with
                          errors := job.progress.errors ++ ["Cancelled by user"] },
                        updatedAt := now1 } := by
      rw [hc1]
      dsimp only
      rw [hclean1]
      dsimp only
      exact storeGet_storeSet_self _ _ _
    refine ⟨?_, ?_, ?_⟩
    · rw [hget1]
      rfl
    · rw [hget1]
      rfl
    · have hmem1 : (cancelWorkerJob deps store mem jobId now1).2.1 = mem := by
        rw [hc1]
      have hc2 := cancelWorkerJob_found deps (cancelWorkerJob deps store mem jobId now1).1
        (cancelWorkerJob deps store mem jobId now1).2.1 jobId now2 _ hget1
      have hclean2 := cleanupWorkerJob_found deps
        (storeSet (cancelWorkerJob deps store mem jobId now1).1 jobId
          { jobId := job.jobId, userId := job.userId, machineId := job.machineId,
            volumeId := job.volumeId, status := JobStatus.failed,
            progress := { job.progress with
              errors := (job.progress.errors ++ ["Cancelled by user"]) ++ ["Cancelled by user"] },
            webhookSecret := job.webhookSecret, tempApiKeyId := job.tempApiKeyId,
            createdAt := job.createdAt, updatedAt := now2 }) jobId now2 _
        (storeGet_storeSet_self _ _ _)
      rw [hc2]
      dsimp only
      rw [hclean2]
      dsimp only
      rw [storeGet_storeSet_self]
      simp [List.append_assoc]

/-- C8 witness: the amended behaviour discharged at the concrete
terminal-status store: the no-op branch on an empty store, and the
error-append on a known job. -/
theorem cancelWorkerJob_behavior_witness :
    cancelWorkerJob depsAllOk [] [] "missing" "t1" = ([], [], []) ∧
    (storeGet (cancelWorkerJob depsAllOk sampleStoreComplete [] "job-1" "t1").1 "job-1").map
      (fun j => j.progress.errors) =
      some (sampleJobComplete.progress.errors ++ ["Cancelled by user"]) :=
  ⟨(cancelWorkerJob_behavior depsAllOk [] [] "missing" "t1" "t2").1 rfl rfl,
   ((cancelWorkerJob_behavior depsAllOk sampleStoreComplete [] "job-1" "t1" "t2").2
     sampleJobComplete rfl).2.1⟩
